import Mathlib

/-!
Verification of the diff-to-findings pipeline of the guardrails repository:
the diff parser (`PRScanner.scan_pr` in `src/scanner.py`), the rule sets
(`SecurityScanner.scan` in `src/security_rules.py`, `StandardsChecker.scan`
in `src/standards_checker.py`, `LicenseChecker.scan` in
`src/license_checker.py`) and the policy engine (`PolicyEngine` in
`src/policy_engine.py`), shallowly embedded as executable Lean functions.
-/

namespace Guardrails

/-- Prefix test on strings, the embedding of Python `str.startswith`. -/
def strStartsWith (s pre : String) : Bool :=
  pre.toList.isPrefixOf s.toList

/-- Split a character list at every occurrence of `sep`, the embedding of
Python `str.split(sep)` for a one-character separator: the empty string
yields `[""]`, and adjacent separators yield empty segments. -/
def pySplit (sep : Char) (cs : List Char) : List (List Char) :=
  cs.foldr
    (fun c acc =>
      if c == sep then [] :: acc
      else
        match acc with
        | h :: t => (c :: h) :: t
        | [] => [[c]])
    [[]]

/-- The lines of a Python string as produced by splitting on the newline
character with `str.split`. -/
def pyLines (s : String) : List String :=
  (pySplit '\n' s.toList).map String.mk

/-- Drop the first `n` characters of a string (Python `line[n:]`). -/
def strDrop (s : String) (n : Nat) : String :=
  String.mk (s.toList.drop n)

/-- Longest digit prefix of a character list, with the rest.  Embeds the
greedy behaviour of a `\d+` regex element. -/
def splitDigits : List Char → List Char × List Char
  | [] => ([], [])
  | c :: cs =>
    if c.isDigit then
      let (d, r) := splitDigits cs
      (c :: d, r)
    else ([], c :: cs)

/-- Drop an exact literal prefix, the embedding of matching a literal
regex fragment at the current position. -/
def dropLit : List Char → List Char → Option (List Char)
  | [], cs => some cs
  | _ :: _, [] => none
  | p :: ps, c :: cs => if p == c then dropLit ps cs else none

/-- Digit list to the number it denotes (Python `int` on a digit string). -/
def digitsToNat (ds : List Char) : Nat :=
  ds.foldl (fun n c => n * 10 + (c.toNat - 48)) 0

/-- Consume the optional part after a mandatory `\d+`: the `(?:,\d+)?`
group of the hunk-header regex.  When the next character is a comma the
group must consume it together with at least one digit, otherwise the
following literal space cannot match; with no comma the group matches
empty. -/
def optCommaDigits : List Char → Option (List Char)
  | ',' :: rest =>
    let (d, rr) := splitDigits rest
    if d.isEmpty then none else some rr
  | cs => some cs

/-- Embedding of the anchored hunk-header regex
`@@ -\d+(?:,\d+)? \+(\d+)(?:,\d+)? @@` of `PRScanner.scan_pr`,
returning the captured new-start number. -/
def parseHunkHeader (line : String) : Option Nat := do
  let r1 ← dropLit "@@ -".toList line.toList
  let (d1, r2) := splitDigits r1
  if d1.isEmpty then none else
  let r3 ← optCommaDigits r2
  let r4 ← dropLit " +".toList r3
  let (d2, r5) := splitDigits r4
  if d2.isEmpty then none else
  let r6 ← optCommaDigits r5
  let _ ← dropLit " @@".toList r6
  some (digitsToNat d2)

/-- Embedding of the anchored file-header regex `\+\+\+ b/(.+)` of
`PRScanner.scan_pr`: the captured group is everything after the
6-character prefix `+++ b/`, and must be non-empty. -/
def parseFileHeader (line : String) : Option String :=
  if strStartsWith line "+++ b/" then
    let rest := strDrop line 6
    if rest.isEmpty then none else some rest
  else none

/-- One record of the output of `PRScanner.scan_pr`: a Python dict with
keys `filename`, `line_number`, `content`. -/
structure AddedLine where
  filename : String
  line_number : Nat
  content : String
deriving Repr, DecidableEq

/-- The loop state of `PRScanner.scan_pr`: `current_file`, `line_number`
and the accumulated `added_lines`. -/
structure ParseState where
  currentFile : Option String
  lineNumber : Nat
  addedLines : List AddedLine
deriving Repr, DecidableEq

/-- One iteration of the per-line loop of `PRScanner.scan_pr`
(`src/scanner.py`). -/
def processLine (st : ParseState) (line : String) : ParseState :=
  if strStartsWith line "diff --git" then
    { st with currentFile := none }
  else if strStartsWith line "+++" then
    match parseFileHeader line with
    | some f => { st with currentFile := some f, lineNumber := 0 }
    | none => st
  else if strStartsWith line "@@" then
    match parseHunkHeader line with
    | some n => { st with lineNumber := n }
    | none => st
  else if strStartsWith line "+" && !strStartsWith line "+++" then
    match st.currentFile with
    | some f =>
      { st with
          addedLines := st.addedLines ++ [⟨f, st.lineNumber, strDrop line 1⟩],
          lineNumber := st.lineNumber + 1 }
    | none => { st with lineNumber := st.lineNumber + 1 }
  else if !strStartsWith line "-" then
    { st with lineNumber := st.lineNumber + 1 }
  else st

/-- Embedding of `PRScanner.scan_pr` (`src/scanner.py`). -/
def scanPR (diff : String) : List AddedLine :=
  ((pyLines diff).foldl processLine ⟨none, 0, []⟩).addedLines

/-- The diff text of Scenario A of the specification. -/
def scenarioADiff : String :=
  "diff --git a/app.py b/app.py\n--- a/app.py\n+++ b/app.py\n@@ -1,2 +1,3 @@\n context\n+password = \"abc123\"\n unchanged\n"

/-! ## Security rules (`src/security_rules.py`) -/

/-- A Python value as far as the scanners inspect one: a string, or some
non-string value (whose string methods raise). -/
inductive PyVal where
  | str (s : String)
  | nonStr
deriving Repr, DecidableEq

/-- The dict shape handed to `SecurityScanner.scan` and
`StandardsChecker.scan`: each field models one dict key, `none` meaning
the key is absent.  `PRScanner.scan_pr` produces dicts carrying
`filename`/`line_number`/`content`; the scanners look up `file` and
`content`. -/
structure ChangeDict where
  file : Option String
  filename : Option String
  line_number : Option Nat
  content : Option PyVal
deriving Repr, DecidableEq

/-- View of a `PRScanner.scan_pr` record as the dict the rule scanners
receive: the `file` key is absent, `filename`/`line_number`/`content`
are present. -/
def addedLineAsChange (a : AddedLine) : ChangeDict :=
  { file := none
    filename := some a.filename
    line_number := some a.line_number
    content := some (.str a.content) }

/-- Whitespace as matched by the regex class `\s` (ASCII cases). -/
def isSpaceCh (c : Char) : Bool :=
  c == ' ' || c == '\t' || c == '\n' || c == '\r' || c == Char.ofNat 11 || c == Char.ofNat 12

/-- A word character for the regex boundary `\b`: `[A-Za-z0-9_]`. -/
def isWordCh (c : Char) : Bool :=
  ('a' ≤ c && c ≤ 'z') || ('A' ≤ c && c ≤ 'Z') || c.isDigit || c == '_'

/-- A single or double quote, the quote character class of the
hardcoded-secret regex. -/
def isQuoteCh (c : Char) : Bool :=
  c == Char.ofNat 39 || c == Char.ofNat 34

/-- Does the pattern `p` match at some position of `cs` (the semantics of
`re.search` for a pattern tested position by position)? -/
def searchPos (p : List Char → Bool) : List Char → Bool
  | [] => p []
  | c :: cs => p (c :: cs) || searchPos p cs

/-- Match the tail of the hardcoded-secret regex after one of its
keywords: optional whitespace, an equals sign, optional whitespace, a
quote, one or more non-quote characters, and a quote. -/
def matchAssignQuoted (cs : List Char) : Bool :=
  match cs.dropWhile isSpaceCh with
  | '=' :: r2 =>
    match r2.dropWhile isSpaceCh with
    | q :: r4 =>
      isQuoteCh q &&
        (let (body, rest) := r4.span (fun c => !isQuoteCh c)
         !body.isEmpty && !rest.isEmpty)
    | [] => false
  | _ => false

/-- Match the full hardcoded-secret regex of `SecurityScanner` at the
current position: one of the keywords `password`, `api_key`, `secret`,
`token`, then the quoted-assignment tail. -/
def matchSecretAt (cs : List Char) : Bool :=
  ["password", "api_key", "secret", "token"].any fun k =>
    match dropLit k.toList cs with
    | some r => matchAssignQuoted r
    | none => false

/-- Embedding of the search of the hardcoded-secret regex of `SecurityScanner`. -/
def matchSecretRule (line : String) : Bool :=
  searchPos matchSecretAt line.toList

/-- Number of occurrences test: does `pat` (non-empty) occur in `s`? -/
def containsSub (s pat : String) : Bool :=
  searchPos (fun cs => (dropLit pat.toList cs).isSome) s.toList

/-- The text after the first occurrence of `pat` in `s`, if any. -/
def afterFirst (s pat : String) : Option String :=
  afterFirstAux pat.toList s.toList
where
  afterFirstAux (p : List Char) : List Char → Option String
    | [] => (dropLit p []).map String.mk
    | c :: cs =>
      match dropLit p (c :: cs) with
      | some r => some (String.mk r)
      | none => afterFirstAux p cs

/-- Embedding of the search of `execute\(.*%s|executemany\(.*%s|\.format\(`:
the SQL injection rule of `SecurityScanner`. -/
def matchSqlRule (line : String) : Bool :=
  (match afterFirst line "execute(" with
   | some r => containsSub r "%s"
   | none => false) ||
  (match afterFirst line "executemany(" with
   | some r => containsSub r "%s"
   | none => false) ||
  containsSub line ".format("

/-- Embedding of the search of `\beval\(`: the dynamic-evaluation rule of
`SecurityScanner`.  The boundary holds when the previous character is
absent or not a word character. -/
def matchEvalRule (line : String) : Bool :=
  go none line.toList
where
  go : Option Char → List Char → Bool
    | prev, c :: cs =>
      ((dropLit "eval(".toList (c :: cs)).isSome &&
        (match prev with
         | none => true
         | some p => !isWordCh p)) ||
      go (some c) cs
    | _, [] => false

/-- Embedding of the search of `os\.system\(.*\+|subprocess.*shell=True`:
the command injection rule of `SecurityScanner`. -/
def matchCmdRule (line : String) : Bool :=
  (match afterFirst line "os.system(" with
   | some r => containsSub r "+"
   | none => false) ||
  (match afterFirst line "subprocess" with
   | some r => containsSub r "shell=True"
   | none => false)

/-- One entry of `SecurityScanner.rules`. -/
structure SecRule where
  regex : String → Bool
  severity : String
  owasp : String
  cwe : String
  message : String
  fix : String

/-- The four rules of `SecurityScanner.__init__`, in declaration order. -/
def securityRules : List SecRule :=
  [ ⟨matchSecretRule, "CRITICAL", "A02: Cryptographic Failures", "CWE-798",
      "Hardcoded secret detected", "Use environment variables or secure vaults"⟩,
    ⟨matchSqlRule, "CRITICAL", "A01: Injection", "CWE-89",
      "Potential SQL injection vulnerability",
      "Use parameterized queries instead of string formatting"⟩,
    ⟨matchEvalRule, "HIGH", "A01: Injection", "CWE-94",
      "Use of eval() function detected",
      "Avoid eval(); use safer alternatives like ast.literal_eval()"⟩,
    ⟨matchCmdRule, "HIGH", "A01: Injection", "CWE-78",
      "Potential command injection vulnerability",
      "Avoid shell=True; use subprocess with list arguments"⟩ ]

/-- A Finding dict as produced by the rule scanners. -/
structure Finding where
  file : String
  line : Nat
  severity : String
  type : String
  message : String
  fix : String
deriving Repr, DecidableEq

/-- The body of the per-change loop of `SecurityScanner.scan`: reading
the `content` and `file` keys raises `KeyError` when absent, and a
non-string content raises on `split` — the surrounding handler skips
the item in every such case. -/
def securityScanChange (c : ChangeDict) : List Finding :=
  match c.content, c.file with
  | some (.str content), some file =>
    (pyLines content).enum.flatMap fun (idx, line) =>
      securityRules.filterMap fun r =>
        if r.regex line then
          some ⟨file, idx + 1, r.severity, r.owasp ++ " (" ++ r.cwe ++ ")", r.message, r.fix⟩
        else none
  | _, _ => []

/-- Embedding of `SecurityScanner.scan` (`src/security_rules.py`). -/
def securityScan (changes : List ChangeDict) : List Finding :=
  changes.flatMap securityScanChange

/-! ## Standards checker (`src/standards_checker.py`) -/

/-- Match `^\s*def\s+[A-Z]` (anchored): optional indentation, `def`, at
least one whitespace character, then an uppercase letter. -/
def matchDefUpper (line : String) : Bool :=
  match dropLit "def".toList (line.toList.dropWhile isSpaceCh) with
  | some (c :: r) =>
    isSpaceCh c &&
      (match r.dropWhile isSpaceCh with
       | d :: _ => 'A' ≤ d && d ≤ 'Z'
       | [] => false)
  | _ => false

/-- Match `^\s*class\s+[a-z]` (anchored). -/
def matchClassLower (line : String) : Bool :=
  match dropLit "class".toList (line.toList.dropWhile isSpaceCh) with
  | some (c :: r) =>
    isSpaceCh c &&
      (match r.dropWhile isSpaceCh with
       | d :: _ => 'a' ≤ d && d ≤ 'z'
       | [] => false)
  | _ => false

/-- Embedding of the search of `except\s*:`. -/
def matchBareExcept (line : String) : Bool :=
  searchPos
    (fun cs =>
      match dropLit "except".toList cs with
      | some r =>
        match r.dropWhile isSpaceCh with
        | c :: _ => c == ':'
        | [] => false
      | none => false)
    line.toList

/-- Match `^\s*def\s+.*:` (anchored): optional indentation, `def`, one
whitespace character, then a colon anywhere in the remainder. -/
def matchDefSig (line : String) : Bool :=
  match dropLit "def".toList (line.toList.dropWhile isSpaceCh) with
  | some (c :: r) => isSpaceCh c && r.contains ':'
  | _ => false

/-- The helper `StandardsChecker._create_violation`. -/
def createViolation (file : String) (line : Nat) (vtype message fix : String) : Finding :=
  ⟨file, line, "MEDIUM", vtype, message, fix⟩

/-- The `content` value `StandardsChecker.scan` works on:
the `change.get` lookup with default yields the empty string for a
missing key, and the `isinstance` guard skips (`none` here) a
non-string value. -/
def standardsContent : Option PyVal → Option String
  | none => some ""
  | some (.str s) => some s
  | some .nonStr => none

/-- The per-change body of `StandardsChecker.scan`: all four checks per
line, findings appended in check order per line. -/
def standardsScanChange (c : ChangeDict) : List Finding :=
  let filename := c.file.getD ""
  match standardsContent c.content with
  | none => []
  | some content =>
    let lines := pyLines content
    lines.enum.flatMap fun (idx, line) =>
      (if matchDefUpper line then
        [createViolation filename (idx + 1) "naming"
          "Function name should be snake_case" "Rename function to snake_case"]
      else []) ++
      (if matchClassLower line then
        [createViolation filename (idx + 1) "naming"
          "Class name should be PascalCase" "Rename class to PascalCase"]
      else []) ++
      (if matchBareExcept line then
        [createViolation filename (idx + 1) "error_handling"
          "Bare except clause" "Specify exception type or use Exception"]
      else []) ++
      (if matchDefSig line then
        match lines.get? (idx + 1) with
        | some nxt =>
          if containsSub nxt "log" then []
          else
            [createViolation filename (idx + 1) "missing_logging"
              "Function missing logging statement" "Add logging statement to function body"]
        | none =>
          [createViolation filename (idx + 1) "missing_logging"
            "Function missing logging statement" "Add logging statement to function body"]
      else [])

/-- Embedding of `StandardsChecker.scan` (`src/standards_checker.py`);
`enabled` is the nested `enabled` flag under the `rules`/`standards`
keys of the configuration dict. -/
def standardsScan (enabled : Bool) (changes : List ChangeDict) : List Finding :=
  if enabled then changes.flatMap standardsScanChange else []

/-! ## License checker (`src/license_checker.py`) -/

/-- The collaborator surface `LicenseChecker` reads:
the `license_check_enabled` config flag, `get_files` (`none` = raises),
`is_proprietary` (`none` = raises, caught and defaulted to `False`), and
`get_file_content` per file (`none` = raises, file skipped). -/
structure GitHubAPIModel where
  licenseCheckEnabled : Bool
  filesResult : Option (List String)
  proprietaryResult : Option Bool
  fileContent : String → Option String

/-- Try the alternation `(GPL|AGPL|LGPL)` at the current position, in
left-to-right order of the regex, returning the matched group with the
rest. -/
def restrictedMatchAt (cs : List Char) : Option (String × List Char) :=
  match dropLit "GPL".toList cs with
  | some r => some ("GPL", r)
  | none =>
    match dropLit "AGPL".toList cs with
    | some r => some ("AGPL", r)
    | none =>
      match dropLit "LGPL".toList cs with
      | some r => some ("LGPL", r)
      | none => none

/-- Consume at most one character satisfying `p` (a greedy `x?` regex
element). -/
def optChar (p : Char → Bool) : List Char → List Char × List Char
  | c :: t => if p c then ([c], t) else ([], c :: t)
  | [] => ([], [])

/-- The characters matched by the tail `-?\d?\.?\d?` of the restricted
licence regex, each element greedy in sequence. -/
def restrictedSuffix (r : List Char) : List Char :=
  let (a1, r1) := optChar (· == '-') r
  let (a2, r2) := optChar Char.isDigit r1
  let (a3, r3) := optChar (· == '.') r2
  let (a4, _) := optChar Char.isDigit r3
  a1 ++ a2 ++ a3 ++ a4

/-- Embedding of the search of `(GPL|AGPL|LGPL)-?\d?\.?\d?`: the leftmost
match, returned as the pair of group 0 and group 1. -/
def restrictedSearch (line : String) : Option (String × String) :=
  go line.toList
where
  go : List Char → Option (String × String)
    | [] => none
    | c :: cs =>
      match restrictedMatchAt (c :: cs) with
      | some (g1, r) => some (String.mk (g1.toList ++ restrictedSuffix r), g1)
      | none => go cs

/-- Embedding of the search of the copyright-notice regex of
`LicenseChecker` (the literal `Copyright (c) ` followed by four digits). -/
def copyrightSearch (line : String) : Bool :=
  searchPos
    (fun cs =>
      match dropLit "Copyright (c) ".toList cs with
      | some (a :: b :: c :: d :: _) => a.isDigit && b.isDigit && c.isDigit && d.isDigit
      | _ => false)
    line.toList

/-- The findings the line loop of `LicenseChecker.scan` appends for one
line: a `restricted_license` finding on a match, plus a
`license_conflict` finding when the captured group is `GPL` and the
project is proprietary. -/
def licenseLineFindings (proprietary : Bool) (file : String) (n : Nat) (line : String) :
    List Finding :=
  match restrictedSearch line with
  | some (g0, g1) =>
    ⟨file, n, "HIGH", "restricted_license",
      "Found restricted license \x27" ++ g0 ++ "\x27", "Replace with MIT, Apache/BSD"⟩ ::
    (if g1 == "GPL" && proprietary then
      [⟨file, n, "HIGH", "license_conflict", "GPL in proprietary project",
        "Remove GPL or change project license"⟩]
    else [])
  | none => []

/-- The per-file body of `LicenseChecker.scan`: line findings in line
order, then a `missing_copyright` finding when no line carries a
copyright notice. -/
def licenseScanFile (proprietary : Bool) (file : String) (content : String) : List Finding :=
  let lines := pyLines content
  (lines.enum.flatMap fun (i, line) => licenseLineFindings proprietary file (i + 1) line) ++
    (if lines.any copyrightSearch then []
     else
       [⟨file, 0, "MEDIUM", "missing_copyright", "Missing copyright header",
         "Add \x27Copyright (c) <year> <owner>\x27"⟩])

/-- Embedding of `LicenseChecker.scan` (`src/license_checker.py`). -/
def licenseScan (api : GitHubAPIModel) : List Finding :=
  if !api.licenseCheckEnabled then []
  else
    match api.filesResult with
    | none => []
    | some files =>
      let proprietary := api.proprietaryResult.getD false
      files.flatMap fun f =>
        match api.fileContent f with
        | none => []
        | some content => licenseScanFile proprietary f content

/-! ## Policy engine (`src/policy_engine.py`) -/

/-- The valid policy modes of `PolicyEngine.__init__`. -/
def validPolicyModes : List String := ["ADVISORY", "WARNING", "BLOCKING"]

/-- Embedding of `PolicyEngine.__init__`: `modeCfg` is the value of the
`mode` key of the configuration dict (`none` = key absent, defaulted to
`WARNING` by `config.get`); the result is the stored `self.mode`, or the
`ValueError` message. -/
def policyInit (modeCfg : Option String) : Except String String :=
  let mode := modeCfg.getD "WARNING"
  if mode ∈ validPolicyModes then .ok mode
  else .error ("Invalid policy mode: " ++ mode)

/-- An issue dict as `PolicyEngine.apply_policy` inspects one: the
`severity` key may be absent (`none`); `payload` stands for the other,
uninspected entries of the dict. -/
structure Issue where
  severity : Option String
  payload : String
deriving Repr, DecidableEq

/-- The dict returned by `PolicyEngine.apply_policy`. -/
structure PolicyActions where
  post_comment : Bool
  block_merge : Bool
  filtered_issues : List Issue
deriving Repr, DecidableEq

/-- The `WARNING`-mode filter predicate of `PolicyEngine.apply_policy`:
the severity of the issue is CRITICAL or HIGH. -/
def isCriticalOrHigh (i : Issue) : Bool :=
  i.severity == some "CRITICAL" || i.severity == some "HIGH"

/-- Embedding of `PolicyEngine.apply_policy` (`src/policy_engine.py`):
validation raises `ValueError` at the first issue missing `severity`;
then the mode decides the filter, `block_merge` is computed over the
filtered list in `BLOCKING` mode, and `post_comment` is always true.
(The `TypeError` paths for a non-list argument or non-dict items are
ruled out by the input type of the embedding.) -/
def applyPolicy (mode : String) (issues : List Issue) : Except String PolicyActions :=
  match issues.findIdx? (fun i => i.severity.isNone) with
  | some idx =>
    .error ("Issue at index " ++ toString idx ++ " missing \x27severity\x27 key")
  | none =>
    let filteredE : Except String (List Issue) :=
      if mode == "ADVISORY" then .ok issues
      else if mode == "WARNING" then .ok (issues.filter isCriticalOrHigh)
      else if mode == "BLOCKING" then .ok issues
      else .error ("Invalid policy mode: " ++ mode)
    match filteredE with
    | .error e => .error e
    | .ok filtered =>
      let block_merge := mode == "BLOCKING" && filtered.any (fun i => i.severity == some "CRITICAL")
      .ok ⟨true, block_merge, filtered⟩

/-! ## Theorems -/

/-- Validation passes exactly when every issue carries a severity. -/
theorem findSeverityIdx_eq_none {issues : List Issue}
    (hall : ∀ i ∈ issues, (i.severity).isSome) :
    issues.findIdx? (fun i => i.severity.isNone) = none := by
  rw [List.findIdx?_eq_none_iff]
  intro i hi
  have := hall i hi
  simp [Option.isNone, Option.isSome] at *
  cases h : i.severity with
  | none => rw [h] at this; simp at this
  | some s => rfl

/-- C2: for every issue list whose members all carry a severity,
`PolicyEngine.apply_policy` follows the mode table: `ADVISORY` keeps all
findings in order and never blocks, `WARNING` keeps exactly the
`CRITICAL`/`HIGH` findings and never blocks, `BLOCKING` keeps all
findings in order and blocks exactly when some finding is `CRITICAL`,
and `post_comment` is true in every case. -/
theorem applyPolicy_mode_table (issues : List Issue)
    (hall : ∀ i ∈ issues, (i.severity).isSome) :
    applyPolicy "ADVISORY" issues = .ok ⟨true, false, issues⟩ ∧
    applyPolicy "WARNING" issues = .ok ⟨true, false, issues.filter isCriticalOrHigh⟩ ∧
    applyPolicy "BLOCKING" issues =
      .ok ⟨true, issues.any (fun i => i.severity == some "CRITICAL"), issues⟩ ∧
    (issues.any (fun i => i.severity == some "CRITICAL") = true ↔
      ∃ i ∈ issues, i.severity = some "CRITICAL") := by
  refine ⟨?_, ?_, ?_, ?_⟩
  · simp [applyPolicy, findSeverityIdx_eq_none hall]
  · simp [applyPolicy, findSeverityIdx_eq_none hall]
  · simp [applyPolicy, findSeverityIdx_eq_none hall]
  · simp [List.any_eq_true]

/-- Witness for `applyPolicy_mode_table` at a concrete two-issue list. -/
theorem applyPolicy_mode_table_witness :
    applyPolicy "WARNING" [⟨some "CRITICAL", "a"⟩, ⟨some "LOW", "b"⟩] =
      .ok ⟨true, false,
        ([⟨some "CRITICAL", "a"⟩, ⟨some "LOW", "b"⟩] : List Issue).filter isCriticalOrHigh⟩ :=
  (applyPolicy_mode_table [⟨some "CRITICAL", "a"⟩, ⟨some "LOW", "b"⟩] (by decide)).2.1

/-- C3: an issue list containing an item without a severity makes
`PolicyEngine.apply_policy` fail with a `ValueError` — an `Except.error`
result, so no `PolicyActions` record is produced — whatever the mode. -/
theorem applyPolicy_missing_severity_errors (mode : String) (issues : List Issue)
    (h : ∃ i ∈ issues, i.severity = none) :
    ∃ e, applyPolicy mode issues = .error e := by
  obtain ⟨i, hi, hsev⟩ := h
  have hne : issues.findIdx? (fun i => i.severity.isNone) ≠ none := by
    intro hnone
    rw [List.findIdx?_eq_none_iff] at hnone
    have := hnone i hi
    rw [hsev] at this
    simp at this
  cases hfi : issues.findIdx? (fun i => i.severity.isNone) with
  | none => exact absurd hfi hne
  | some idx =>
    refine ⟨"Issue at index " ++ toString idx ++ " missing \x27severity\x27 key", ?_⟩
    simp [applyPolicy, hfi]

/-- Witness for `applyPolicy_missing_severity_errors`. -/
theorem applyPolicy_missing_severity_errors_witness :
    ∃ e, applyPolicy "BLOCKING" [⟨some "HIGH", "x"⟩, ⟨none, "y"⟩] = .error e :=
  applyPolicy_missing_severity_errors "BLOCKING" [⟨some "HIGH", "x"⟩, ⟨none, "y"⟩]
    ⟨⟨none, "y"⟩, by decide, rfl⟩

/-- C4: whenever `PolicyEngine.apply_policy` returns a decision for a
valid mode, its `filtered_issues` is an order-preserving subsequence of
the input list, and for `ADVISORY` or `BLOCKING` it is the input list
itself. -/
theorem applyPolicy_filter_sublist (mode : String) (issues : List Issue) (a : PolicyActions)
    (hmode : mode ∈ validPolicyModes)
    (hok : applyPolicy mode issues = .ok a) :
    a.filtered_issues.Sublist issues ∧
      ((mode = "ADVISORY" ∨ mode = "BLOCKING") → a.filtered_issues = issues) := by
  cases hfi : issues.findIdx? (fun i => i.severity.isNone) with
  | some idx => simp [applyPolicy, hfi] at hok
  | none =>
    simp [validPolicyModes] at hmode
    rcases hmode with h | h | h <;> subst h <;>
      simp [applyPolicy, hfi] at hok <;> rw [← hok] <;>
      simp [List.filter_sublist]

/-- Witness for `applyPolicy_filter_sublist`. -/
theorem applyPolicy_filter_sublist_witness :
    (([⟨some "CRITICAL", "a"⟩] : List Issue)).Sublist
        [⟨some "CRITICAL", "a"⟩, ⟨some "LOW", "b"⟩] ∧
      (("WARNING" : String) = "ADVISORY" ∨ ("WARNING" : String) = "BLOCKING" →
        ([⟨some "CRITICAL", "a"⟩] : List Issue) = [⟨some "CRITICAL", "a"⟩, ⟨some "LOW", "b"⟩]) :=
  applyPolicy_filter_sublist "WARNING" [⟨some "CRITICAL", "a"⟩, ⟨some "LOW", "b"⟩]
    ⟨true, false, [⟨some "CRITICAL", "a"⟩]⟩ (by decide) rfl

/-- C10: `PolicyEngine.__init__` defaults a missing `mode` key to
`WARNING`, and raises `ValueError` exactly when a present `mode` value
is none of `ADVISORY`, `WARNING`, `BLOCKING`. -/
theorem policyInit_default_and_validation :
    policyInit none = .ok "WARNING" ∧
      ∀ m : String,
        (∃ e, policyInit (some m) = .error e) ↔
          (m ≠ "ADVISORY" ∧ m ≠ "WARNING" ∧ m ≠ "BLOCKING") := by
  refine ⟨rfl, fun m => ?_⟩
  constructor
  · rintro ⟨e, he⟩
    by_contra hvalid
    simp only [not_and_or, not_not] at hvalid
    rcases hvalid with h | h | h <;> subst h <;>
      simp [policyInit, validPolicyModes] at he
  · rintro ⟨h1, h2, h3⟩
    refine ⟨"Invalid policy mode: " ++ m, ?_⟩
    have hmem : m ∉ validPolicyModes := by
      simp [validPolicyModes, h1, h2, h3]
    simp [policyInit, hmem]

/-- Witness for `policyInit_default_and_validation`: an unknown mode
string is rejected. -/
theorem policyInit_default_and_validation_witness :
    ∃ e, policyInit (some "STRICT") = .error e :=
  (policyInit_default_and_validation.2 "STRICT").mpr (by decide)

/-- C1: on the Scenario A diff, `PRScanner.scan_pr` does yield exactly
the one expected added-line record, but feeding that output to
`SecurityScanner.scan` yields no finding at all: the scanner looks up
the `file` key, the parser emits the key `filename`, and the resulting
`KeyError` is swallowed by the per-item handler, so every item is
skipped. -/
theorem scenarioA_parse_ok_but_scan_empty :
    scanPR scenarioADiff = [⟨"app.py", 2, "password = \"abc123\""⟩] ∧
      securityScan ((scanPR scenarioADiff).map addedLineAsChange) = [] :=
  ⟨by decide, by decide⟩

/-- A line prefixed by `pre` starts with the first character of `pre`. -/
theorem toList_head_of_startsWith {line pre : String} {d : Char} {r : List Char}
    (hp : pre.toList = d :: r) (h : strStartsWith line pre = true) :
    ∃ t, line.toList = d :: t := by
  unfold strStartsWith at h
  cases hl : line.toList with
  | nil => rw [hp, hl] at h; simp [List.isPrefixOf] at h
  | cons c t =>
    rw [hp, hl] at h
    simp [List.isPrefixOf] at h
    obtain ⟨hd, -⟩ := h
    subst hd
    exact ⟨t, rfl⟩

/-- A line whose first character differs from the first character of
`pre` does not start with `pre`. -/
theorem strStartsWith_false_of_head_ne {line pre : String} {c d : Char}
    {t r : List Char} (hl : line.toList = c :: t) (hp : pre.toList = d :: r)
    (hne : d ≠ c) : strStartsWith line pre = false := by
  unfold strStartsWith
  rw [hl, hp]
  simp [List.isPrefixOf]
  intro h
  exact absurd h hne

/-- C6: `PRScanner.scan_pr` degrades gracefully (it is a total function
of the diff text): the empty string parses to the empty sequence, a
line that looks like a hunk header but fails the header regex leaves
the parser state — in particular the running line counter — entirely
unchanged, and an added line seen while no `+++` file header is in
effect emits no record. -/
theorem scanPR_graceful :
    scanPR "" = [] ∧
      (∀ (st : ParseState) (line : String),
        strStartsWith line "@@" = true → parseHunkHeader line = none →
          processLine st line = st) ∧
      (∀ (st : ParseState) (line : String),
        st.currentFile = none → strStartsWith line "+" = true →
          strStartsWith line "+++" = false →
          (processLine st line).addedLines = st.addedLines) := by
  refine ⟨by decide, ?_, ?_⟩
  · intro st line hat hnone
    obtain ⟨t, hl⟩ := toList_head_of_startsWith (d := '@') (r := ['@']) rfl hat
    have h1 : strStartsWith line "diff --git" = false :=
      strStartsWith_false_of_head_ne hl rfl (by decide)
    have h2 : strStartsWith line "+++" = false :=
      strStartsWith_false_of_head_ne hl rfl (by decide)
    simp [processLine, h1, h2, hat, hnone]
  · intro st line hfile hplus hplus3
    obtain ⟨t, hl⟩ := toList_head_of_startsWith (d := '+') (r := []) rfl hplus
    have h1 : strStartsWith line "diff --git" = false :=
      strStartsWith_false_of_head_ne hl rfl (by decide)
    have h3 : strStartsWith line "@@" = false :=
      strStartsWith_false_of_head_ne hl rfl (by decide)
    simp [processLine, h1, h3, hplus, hplus3, hfile]

/-- Witness for `scanPR_graceful`: a malformed hunk header is a no-op,
and an added line with no file context is dropped. -/
theorem scanPR_graceful_witness :
    processLine ⟨some "f.py", 7, []⟩ "@@ not a header" = ⟨some "f.py", 7, []⟩ ∧
      (processLine ⟨none, 3, []⟩ "+x").addedLines = [] :=
  ⟨scanPR_graceful.2.1 ⟨some "f.py", 7, []⟩ "@@ not a header" (by decide) (by decide),
   scanPR_graceful.2.2 ⟨none, 3, []⟩ "+x" rfl (by decide) (by decide)⟩

/-- An item `SecurityScanner.scan` can process without an exception:
the `file` key is present and the `content` key holds a string. -/
def secWellFormed (c : ChangeDict) : Bool :=
  c.file.isSome &&
    (match c.content with
     | some (.str _) => true
     | _ => false)

/-- An item `StandardsChecker.scan` does not skip: the `content` key,
when present, holds a string (`change.get` defaults a missing key). -/
def stdWellFormed (c : ChangeDict) : Bool :=
  match c.content with
  | some .nonStr => false
  | _ => true

theorem securityScan_cons (c : ChangeDict) (cs : List ChangeDict) :
    securityScan (c :: cs) = securityScanChange c ++ securityScan cs := rfl

theorem securityScanChange_eq_nil_of_malformed {c : ChangeDict}
    (h : secWellFormed c = false) : securityScanChange c = [] := by
  unfold secWellFormed at h
  unfold securityScanChange
  cases hc : c.content with
  | none => rfl
  | some v =>
    cases v with
    | nonStr => rfl
    | str s =>
      cases hf : c.file with
      | none => rfl
      | some f => rw [hc, hf] at h; simp at h

theorem standardsScanChange_eq_nil_of_malformed {c : ChangeDict}
    (h : stdWellFormed c = false) : standardsScanChange c = [] := by
  unfold stdWellFormed at h
  unfold standardsScanChange
  cases hc : c.content with
  | none => rw [hc] at h; simp at h
  | some v =>
    cases v with
    | nonStr => simp [standardsContent]
    | str s => rw [hc] at h; simp at h

/-- C7: a malformed item never aborts a scan — both `SecurityScanner.scan`
and `StandardsChecker.scan` return exactly the findings of the
well-formed items, whatever malformed items the input interleaves
(the per-item `try`/`except` skips them). -/
theorem scans_skip_malformed_items (enabled : Bool) (changes : List ChangeDict) :
    securityScan changes = securityScan (changes.filter secWellFormed) ∧
      standardsScan enabled changes = standardsScan enabled (changes.filter stdWellFormed) := by
  constructor
  · induction changes with
    | nil => rfl
    | cons c cs ih =>
      cases h : secWellFormed c with
      | true => rw [List.filter_cons_of_pos (by rw [h]), securityScan_cons, securityScan_cons, ih]
      | false =>
        rw [List.filter_cons_of_neg (by simp [h]), securityScan_cons,
          securityScanChange_eq_nil_of_malformed h, List.nil_append, ih]
  · cases enabled with
    | false => rfl
    | true =>
      simp only [standardsScan, if_true]
      induction changes with
      | nil => rfl
      | cons c cs ih =>
        cases h : stdWellFormed c with
        | true =>
          rw [List.filter_cons_of_pos (by rw [h]), List.flatMap_cons, List.flatMap_cons, ih]
        | false =>
          rw [List.filter_cons_of_neg (by simp [h]), List.flatMap_cons,
            standardsScanChange_eq_nil_of_malformed h, List.nil_append, ih]

/-- On a line that is neither a `+++` file header nor a `@@` hunk
header, one parser step never decreases the line counter, and either
leaves the emitted records unchanged or appends exactly one record
carrying the current counter. -/
theorem processLine_nonheader_step (st : ParseState) (l : String)
    (h3 : strStartsWith l "+++" = false) (h2 : strStartsWith l "@@" = false) :
    st.lineNumber ≤ (processLine st l).lineNumber ∧
      ((processLine st l).addedLines = st.addedLines ∨
        ∃ r : AddedLine, r.line_number = st.lineNumber ∧
          (processLine st l).addedLines = st.addedLines ++ [r]) := by
  unfold processLine
  cases h1 : strStartsWith l "diff --git" with
  | true => simp
  | false =>
    simp only [h1, h3, h2, Bool.false_eq_true, if_false, Bool.not_false, Bool.and_true]
    cases h4 : strStartsWith l "+" with
    | true =>
      cases hcf : st.currentFile with
      | some f =>
        simp only [if_true]
        exact ⟨Nat.le_succ _, Or.inr ⟨⟨f, st.lineNumber, strDrop l 1⟩, rfl, rfl⟩⟩
      | none => simp
    | false =>
      cases h5 : strStartsWith l "-" with
      | true => simp
      | false => simp

/-- Over a run of lines with no `+++` header and no `@@` header, the
parser only appends records, their line numbers are all at least the
starting counter, and they are non-decreasing in emission order. -/
theorem processRun_monotonic (bs : List String) :
    ∀ st : ParseState,
      (∀ l ∈ bs, strStartsWith l "+++" = false ∧ strStartsWith l "@@" = false) →
      ∃ δ : List AddedLine,
        (bs.foldl processLine st).addedLines = st.addedLines ++ δ ∧
          (∀ r ∈ δ, st.lineNumber ≤ r.line_number) ∧
          List.Chain' (fun a b => a.line_number ≤ b.line_number) δ := by
  induction bs with
  | nil => exact fun st _ => ⟨[], by simp, by simp, List.chain'_nil⟩
  | cons l ls ih =>
    intro st hb
    have hrun : st.lineNumber ≤ (processLine st l).lineNumber ∧ _ :=
      processLine_nonheader_step st l (hb l (List.mem_cons_self l ls)).1
        (hb l (List.mem_cons_self l ls)).2
    obtain ⟨hln, hcase⟩ := hrun
    obtain ⟨δ, hδ1, hδ2, hδ3⟩ :=
      ih (processLine st l) (fun l' h' => hb l' (List.mem_cons_of_mem l h'))
    have hmono : ∀ r ∈ δ, (processLine st l).lineNumber ≤ r.line_number := hδ2
    rcases hcase with heq | ⟨r, hr, heq⟩
    · refine ⟨δ, ?_, ?_, hδ3⟩
      · rw [List.foldl_cons, hδ1, heq]
      · exact fun x hx => le_trans hln (hmono x hx)
    · refine ⟨r :: δ, ?_, ?_, ?_⟩
      · rw [List.foldl_cons, hδ1, heq, List.append_assoc]
        rfl
      · intro x hx
        rcases List.mem_cons.mp hx with h | h
        · rw [h, hr]
        · exact le_trans hln (hmono x h)
      · rw [List.chain'_cons']
        refine ⟨fun y hy => ?_, hδ3⟩
        have hymem : y ∈ δ := List.mem_of_mem_head? hy
        calc r.line_number = st.lineNumber := hr
          _ ≤ (processLine st l).lineNumber := hln
          _ ≤ y.line_number := hmono y hymem

/-- C5 (amended): within a single hunk — over any run of diff lines
containing no `+++` file header and no `@@` hunk header — the records
`PRScanner.scan_pr` emits have non-decreasing `line_number`, from any
starting file and counter.  (Across hunk or file headers the property
fails; see `scanPR_nonmonotonic_counterexample`.) -/
theorem scanPR_hunk_monotonic (f : Option String) (n : Nat) (bs : List String)
    (hb : ∀ l ∈ bs, strStartsWith l "+++" = false ∧ strStartsWith l "@@" = false) :
    List.Chain' (fun a b => a.line_number ≤ b.line_number)
      ((bs.foldl processLine ⟨f, n, []⟩).addedLines) := by
  obtain ⟨δ, h1, -, h3⟩ := processRun_monotonic bs ⟨f, n, []⟩ hb
  rw [h1]
  simpa using h3

/-- Witness for `scanPR_hunk_monotonic`: a three-line hunk body emitting
records at lines 3 and 5. -/
theorem scanPR_hunk_monotonic_witness :
    List.Chain' (fun a b => a.line_number ≤ b.line_number)
      (((["+a", " ctx", "+b"] : List String).foldl processLine
          ⟨some "x.py", 3, []⟩).addedLines) :=
  scanPR_hunk_monotonic (some "x.py") 3 ["+a", " ctx", "+b"] (by decide)

/-- A diff whose second hunk header rewinds the counter. -/
def rewindingDiff : String :=
  "+++ b/f.py\n@@ -5 +5 @@\n+a\n@@ -1 +1 @@\n+b"

/-- Counterexample to C5 as stated: over arbitrary diff text the
per-file line numbers of the output of `PRScanner.scan_pr` are not
non-decreasing — a later hunk header may rewind the counter. -/
theorem scanPR_nonmonotonic_counterexample :
    scanPR rewindingDiff = [⟨"f.py", 5, "a"⟩, ⟨"f.py", 1, "b"⟩] ∧
      ¬ List.Chain' (fun a b => a.line_number ≤ b.line_number)
          ((scanPR rewindingDiff).filter (fun r => r.filename == "f.py")) := by
  refine ⟨by decide, fun hch => ?_⟩
  rw [show (scanPR rewindingDiff).filter (fun r => r.filename == "f.py") =
      [⟨"f.py", 5, "a"⟩, ⟨"f.py", 1, "b"⟩] from by decide] at hch
  rw [List.chain'_cons] at hch
  exact absurd hch.1 (by decide)

/-- C8 (amended): every scanned file line on which the restricted-licence
regex matches contributes a HIGH `restricted_license` Finding, and
additionally a `license_conflict` Finding when the project is flagged
proprietary and the captured licence token is exactly `GPL` (an `AGPL`
or `LGPL` match never yields a conflict Finding; see
`licenseScan_agpl_no_conflict_counterexample`). -/
theorem licenseScan_restricted_and_conflict (api : GitHubAPIModel)
    (files : List String) (f content line g0 g1 : String) (i : Nat)
    (hen : api.licenseCheckEnabled = true)
    (hfiles : api.filesResult = some files)
    (hf : f ∈ files)
    (hc : api.fileContent f = some content)
    (hl : (pyLines content)[i]? = some line)
    (hm : restrictedSearch line = some (g0, g1)) :
    (⟨f, i + 1, "HIGH", "restricted_license",
        "Found restricted license \x27" ++ g0 ++ "\x27",
        "Replace with MIT, Apache/BSD"⟩ : Finding) ∈ licenseScan api ∧
      (api.proprietaryResult.getD false = true → g1 = "GPL" →
        (⟨f, i + 1, "HIGH", "license_conflict", "GPL in proprietary project",
          "Remove GPL or change project license"⟩ : Finding) ∈ licenseScan api) := by
  have hmem :
      ∀ x : Finding, x ∈ licenseLineFindings (api.proprietaryResult.getD false) f (i + 1) line →
        x ∈ licenseScan api := by
    intro x hx
    unfold licenseScan
    rw [hen, hfiles]
    simp only [Bool.not_true, Bool.false_eq_true, if_false, List.mem_flatMap]
    refine ⟨f, hf, ?_⟩
    rw [hc]
    unfold licenseScanFile
    apply List.mem_append_left
    rw [List.mem_flatMap]
    exact ⟨(i, line), List.mem_enum_iff_getElem?.mpr hl, hx⟩
  constructor
  · apply hmem
    unfold licenseLineFindings
    rw [hm]
    exact List.mem_cons_self _ _
  · intro hprop hgpl
    apply hmem
    unfold licenseLineFindings
    rw [hm, hgpl, hprop]
    simp

/-- Witness for `licenseScan_restricted_and_conflict`: a proprietary
project with one GPL-licensed file receives both findings. -/
theorem licenseScan_restricted_and_conflict_witness :
    (⟨"core.py", 1, "HIGH", "restricted_license",
        "Found restricted license \x27" ++ "GPL-3.0" ++ "\x27",
        "Replace with MIT, Apache/BSD"⟩ : Finding) ∈ licenseScan
        ⟨true, some ["core.py"], some true,
          fun f => if f == "core.py" then some "Uses GPL-3.0 code" else none⟩ ∧
      ((⟨true, some ["core.py"], some true,
          fun f => if f == "core.py" then some "Uses GPL-3.0 code" else none⟩ :
            GitHubAPIModel).proprietaryResult.getD false = true → "GPL" = "GPL" →
        (⟨"core.py", 1, "HIGH", "license_conflict", "GPL in proprietary project",
          "Remove GPL or change project license"⟩ : Finding) ∈ licenseScan
          ⟨true, some ["core.py"], some true,
            fun f => if f == "core.py" then some "Uses GPL-3.0 code" else none⟩) :=
  licenseScan_restricted_and_conflict
    ⟨true, some ["core.py"], some true,
      fun f => if f == "core.py" then some "Uses GPL-3.0 code" else none⟩
    ["core.py"] "core.py" "Uses GPL-3.0 code" "Uses GPL-3.0 code" "GPL-3.0" "GPL" 0
    rfl rfl (by decide) rfl (by decide) (by decide)

/-- The collaborator model of a proprietary project whose single file
carries an AGPL licence token. -/
def agplApi : GitHubAPIModel :=
  { licenseCheckEnabled := true
    filesResult := some ["core.py"]
    proprietaryResult := some true
    fileContent := fun f => if f == "core.py" then some "Licensed under AGPL-3.0" else none }

/-- Counterexample to C8 as stated: on a proprietary project whose file
carries the strong-copyleft token `AGPL`, `LicenseChecker.scan` emits
the HIGH restricted-licence finding but no conflict finding — the code
compares the captured token against the literal `GPL` only, and an AGPL
occurrence captures `AGPL`. -/
theorem licenseScan_agpl_no_conflict_counterexample :
    licenseScan agplApi =
      [⟨"core.py", 1, "HIGH", "restricted_license",
          "Found restricted license \x27AGPL-3.0\x27", "Replace with MIT, Apache/BSD"⟩,
        ⟨"core.py", 0, "MEDIUM", "missing_copyright", "Missing copyright header",
          "Add \x27Copyright (c) <year> <owner>\x27"⟩] ∧
      ∀ x ∈ licenseScan agplApi, x.type ≠ "license_conflict" :=
  ⟨by decide, by decide⟩

/-- C9 (amended): with the standards rules enabled,
`StandardsChecker.scan` emits a MEDIUM `naming` Finding for every
scanned line matching `^\s*def\s+[A-Z]` — a function definition whose
name starts with an uppercase letter.  (Other non-snake_case names,
e.g. camelCase names starting with a lowercase letter, are not flagged;
see `standardsScan_misses_camelCase_counterexample`.) -/
theorem standardsScan_flags_upper_def (changes : List ChangeDict) (c : ChangeDict)
    (content line : String) (i : Nat)
    (hc : c ∈ changes) (hcontent : c.content = some (.str content))
    (hl : (pyLines content)[i]? = some line)
    (hm : matchDefUpper line = true) :
    createViolation (c.file.getD "") (i + 1) "naming"
        "Function name should be snake_case" "Rename function to snake_case"
      ∈ standardsScan true changes := by
  unfold standardsScan
  rw [if_pos rfl, List.mem_flatMap]
  refine ⟨c, hc, ?_⟩
  unfold standardsScanChange
  rw [hcontent]
  simp only [standardsContent, List.mem_flatMap]
  refine ⟨(i, line), List.mem_enum_iff_getElem?.mpr hl, ?_⟩
  apply List.mem_append_left
  apply List.mem_append_left
  apply List.mem_append_left
  rw [hm]
  simp

/-- Witness for `standardsScan_flags_upper_def`: a `def BadName():` line
is flagged. -/
theorem standardsScan_flags_upper_def_witness :
    createViolation ((⟨some "m.py", none, none, some (.str "def BadName():")⟩ :
          ChangeDict).file.getD "") (0 + 1) "naming"
        "Function name should be snake_case" "Rename function to snake_case"
      ∈ standardsScan true [⟨some "m.py", none, none, some (.str "def BadName():")⟩] :=
  standardsScan_flags_upper_def
    [⟨some "m.py", none, none, some (.str "def BadName():")⟩]
    ⟨some "m.py", none, none, some (.str "def BadName():")⟩
    "def BadName():" "def BadName():" 0
    (List.mem_singleton.mpr rfl) rfl (by decide) (by decide)

/-- A change whose single line defines a camelCase-named function. -/
def camelChange : ChangeDict :=
  ⟨some "a.py", none, none, some (.str "def getData():")⟩

/-- Counterexample to C9 as stated: `def getData():` defines a function
whose name is not snake_case (it contains an uppercase letter), yet the
enabled standards scan emits no `naming` finding for it — the naming
regex `^\s*def\s+[A-Z]` only fires when the name starts with an
uppercase letter. -/
theorem standardsScan_misses_camelCase_counterexample :
    (∃ ch ∈ "getData".toList, ch.isUpper = true) ∧
      standardsScan true [camelChange] =
        [⟨"a.py", 1, "MEDIUM", "missing_logging", "Function missing logging statement",
          "Add logging statement to function body"⟩] ∧
      ∀ v ∈ standardsScan true [camelChange], v.type ≠ "naming" :=
  ⟨by decide, by decide, by decide⟩

end Guardrails
